import Mathlib

/-!
Verification of the cluster-reflector app-discovery and cache engine
(`app/pkg/discovery`, file `discovery.go`, plus the `types` package).

The Go code is shallowly embedded: Go strings are Lean `String`s, the
`map[string]*App` accumulator is an association list mutated by pure
update functions, `time.Time`/`time.Duration` are `Int` (nanoseconds are
irrelevant; only ordering and arithmetic matter), Kubernetes list calls
are abstracted as functions from a list scope to `Except String` results,
and in-place pointer mutation of map entries becomes entry replacement.
-/

namespace ClusterReflector

/-- ASCII fragment of Go's `unicode.IsSpace`, used by `strings.TrimSpace`. -/
def isSpaceChar (c : Char) : Bool :=
  c = ' ' || c = '\t' || c = '\n' || c = '\r' || c = Char.ofNat 11 || c = Char.ofNat 12

/-- Embedding of Go `strings.TrimSpace`. -/
def trimSpace (s : String) : String :=
  String.mk (((s.data.dropWhile isSpaceChar).reverse.dropWhile isSpaceChar).reverse)

/-- Split a character list at every occurrence of `c`; always returns a
nonempty list of chunks.  This is Go `strings.Split` for a one-character
separator, acting on the underlying characters. -/
def splitChars (c : Char) : List Char → List (List Char)
  | [] => [[]]
  | x :: xs =>
    match splitChars c xs with
    | [] => if x = c then [[], []] else [[x]]
    | r :: rs => if x = c then [] :: r :: rs else (x :: r) :: rs

/-- Embedding of Go `strings.Split s (String.singleton c)`. -/
def goSplit (s : String) (c : Char) : List String :=
  (splitChars c s.data).map String.mk

/-- Embedding of Go `strings.Contains s (String.singleton c)`. -/
def containsChar (s : String) (c : Char) : Bool :=
  s.data.contains c

/-- `types.App`: an application with version information.  `version` is the
spec's `primaryVersion`; `variants` the accumulated distinct versions. -/
structure App where
  name : String
  version : String
  variants : List String
deriving DecidableEq, Repr

/-- The `map[string]*App` accumulator, as an association list keyed by app
name.  Keys are unique because entries are only ever added when absent. -/
abbrev AppMap := List (String × App)

/-- Go map read `appMap[name]` (with its `exists` flag as `Option`). -/
def findApp (m : AppMap) (n : String) : Option App :=
  match m with
  | [] => none
  | (k, a) :: rest => if k = n then some a else findApp rest n

/-- In-place mutation of the entry stored under `n` (Go mutates through the
`*App` pointer held in the map). -/
def setApp (m : AppMap) (n : String) (a : App) : AppMap :=
  m.map (fun p => if p.1 = n then (n, a) else p)

/-- The duplicate-avoiding variants append shared by both fold rules:
scan `Variants` for `v`, append only when not found. -/
def addVariant (variants : List String) (v : String) : List String :=
  if variants.contains v then variants else variants ++ [v]

/-- Go map read `labels[k]` on a `map[string]string`: missing keys yield `""`. -/
def lookupLabel (labels : List (String × String)) (k : String) : String :=
  match labels with
  | [] => ""
  | (k', v) :: rest => if k' = k then v else lookupLabel rest k

/-- `parseImageTag`: extract app name and version from a container image
reference (strip registry path, split name and tag, drop a digest suffix). -/
def parseImageTag (image : String) : String × String :=
  let parts := goSplit image '/'
  let imageName := parts.getLastD ""
  let nameTag := goSplit imageName ':'
  if nameTag.length < 2 then
    (nameTag.headD "", "latest")
  else
    let name := nameTag.headD ""
    let tag := nameTag.getD 1 ""
    let tag := if containsChar tag '@' then (goSplit tag '@').headD "" else tag
    (name, tag)

/-- `processWorkloadLabels`: fold one workload's labels (and, lacking a name
label, its first container image) into the app map.  A workload is the pair
of its label map and its container image list (only `Image` is read). -/
def processWorkloadLabels (labels : List (String × String)) (containers : List String)
    (m : AppMap) : AppMap :=
  let appName := lookupLabel labels "app.kubernetes.io/name"
  let appVersion := lookupLabel labels "app.kubernetes.io/version"
  let p := if appName = "" ∧ containers.length > 0 then
             parseImageTag (containers.headD "")
           else (appName, appVersion)
  let appName := p.1
  let appVersion := p.2
  if appName = "" then m
  else
    let appVersion := if appVersion = "" then "unknown" else appVersion
    match findApp m appName with
    | some existing =>
        setApp m appName { existing with variants := addVariant existing.variants appVersion }
    | none =>
        m ++ [(appName, { name := appName, version := appVersion, variants := [appVersion] })]

/-- The loosely-typed `spec` block of an unstructured AppVersion object:
each field is present as a string or effectively absent. -/
structure AVSpec where
  name : Option String
  version : Option String
deriving DecidableEq, Repr

/-- An unstructured AppVersion object: the `spec` map is present or not. -/
structure AVObj where
  spec : Option AVSpec
deriving DecidableEq, Repr

/-- `processAppVersionFromUnstructured`: fold one AppVersion object into the
app map; objects missing `spec`, `spec.name` or `spec.version` are skipped.
Unlike the workload fold, this one overwrites `version` of an existing entry. -/
def processAppVersionFromUnstructured (obj : AVObj) (m : AppMap) : AppMap :=
  match obj.spec with
  | none => m
  | some spec =>
    match spec.name with
    | none => m
    | some name =>
      match spec.version with
      | none => m
      | some version =>
        match findApp m name with
        | some existing =>
            setApp m name
              { existing with variants := addVariant existing.variants version
                              version := version }
        | none =>
            m ++ [(name, { name := name, version := version, variants := [version] })]

/-- `parseNamespaceSelector`: `""` maps to the all-namespaces sentinel list;
otherwise split on commas and trim each token. -/
def parseNamespaceSelector (selector : String) : List String :=
  if selector = "" then [""]
  else (goSplit selector ',').map trimSpace

/-- The scope of one Kubernetes list call: cluster-wide or one namespace. -/
inductive ListScope
  | allNamespaces
  | inNamespace (ns : String)
deriving DecidableEq, Repr

/-- The branch in `discoverFromDeployments` / `discoverFromStatefulSets`
choosing between `Deployments("")` (cluster-wide) and `Deployments(ns)`. -/
def scopeOf (ns : String) : ListScope :=
  if ns = "" then ListScope.allNamespaces else ListScope.inNamespace ns

/-- A workload object as read by discovery: its labels and the images of its
pod-template containers. -/
structure WorkloadObj where
  labels : List (String × String)
  containers : List String
deriving DecidableEq, Repr

/-- The capability to list workload objects of one kind in one scope. -/
abbrev WorkloadLister := ListScope → Except String (List WorkloadObj)

/-- The capability to list AppVersion custom objects in one scope. -/
abbrev CRDLister := ListScope → Except String (List AVObj)

/-- `discoverFromDeployments`: fold each namespace's deployments into the
map; a listing failure returns the error at once (the `Bool` flag), keeping
the folds already made (the Go map is mutated in place) and skipping the
remaining namespaces. -/
def discoverFromDeployments (list : WorkloadLister) :
    List String → AppMap → AppMap × Bool
  | [], m => (m, false)
  | ns :: rest, m =>
    match list (scopeOf ns) with
    | Except.error _ => (m, true)
    | Except.ok deployments =>
        discoverFromDeployments list rest
          (deployments.foldl (fun m d => processWorkloadLabels d.labels d.containers m) m)

/-- `discoverFromStatefulSets`: identical shape to `discoverFromDeployments`,
against the StatefulSet list capability. -/
def discoverFromStatefulSets (list : WorkloadLister) :
    List String → AppMap → AppMap × Bool
  | [], m => (m, false)
  | ns :: rest, m =>
    match list (scopeOf ns) with
    | Except.error _ => (m, true)
    | Except.ok statefulSets =>
        discoverFromStatefulSets list rest
          (statefulSets.foldl (fun m s => processWorkloadLabels s.labels s.containers m) m)

/-- `types.Config`, restricted to the fields the discovery core reads. -/
structure Config where
  cacheTTL : Int
  namespaceSelector : String
  preferCRD : Bool
  fallbackWorkloads : Bool
  crdOnly : Bool
  workloadKinds : List String
deriving Repr

/-- `discoverAppsFromWorkloads`: resolve the namespace list, then per
configured kind run that kind's discovery; a kind's error is logged and the
loop continues (the error flag is dropped), and the function itself always
succeeds. -/
def discoverAppsFromWorkloads (cfg : Config) (depList stsList : WorkloadLister)
    (m : AppMap) : AppMap :=
  let namespaces := if cfg.namespaceSelector = "" then [""]
                    else parseNamespaceSelector cfg.namespaceSelector
  cfg.workloadKinds.foldl (fun m kind =>
    if kind = "Deployment" then (discoverFromDeployments depList namespaces m).1
    else if kind = "StatefulSet" then (discoverFromStatefulSets stsList namespaces m).1
    else m) m

/-- `discoverAppsFromCRD`: with an empty selector, one cluster-wide list
whose failure is the function's error; with a selector, one list per parsed
namespace, each failure logged and that namespace skipped (never an error). -/
def discoverAppsFromCRD (cfg : Config) (list : CRDLister) (m : AppMap) :
    AppMap × Bool :=
  if cfg.namespaceSelector = "" then
    match list ListScope.allNamespaces with
    | Except.error _ => (m, true)
    | Except.ok items =>
        (items.foldl (fun m it => processAppVersionFromUnstructured it m) m, false)
  else
    ((parseNamespaceSelector cfg.namespaceSelector).foldl (fun m ns =>
      match list (ListScope.inNamespace ns) with
      | Except.error _ => m
      | Except.ok items =>
          items.foldl (fun m it => processAppVersionFromUnstructured it m) m) m, false)

/-- Which discovery sources ran, in order, during one `discoverApps` pass. -/
inductive Source
  | crd
  | workload
deriving DecidableEq, Repr

/-- `discoverApps`: run the CRD source when `preferCRD` (its failure is
logged, not propagated), then the workload source when `fallbackWorkloads`
and not `crdOnly`, into the same map.  The second component records which
sources ran, in order. -/
def discoverApps (cfg : Config) (crdList : CRDLister)
    (depList stsList : WorkloadLister) : AppMap × List Source :=
  let m : AppMap := []
  let step1 := if cfg.preferCRD then
                 ((discoverAppsFromCRD cfg crdList m).1, [Source.crd])
               else (m, ([] : List Source))
  if cfg.fallbackWorkloads && !cfg.crdOnly then
    (discoverAppsFromWorkloads cfg depList stsList step1.1,
     step1.2 ++ [Source.workload])
  else step1

/-- The map-to-slice conversion closing `discoverApps` (Go map iteration
order is unspecified; insertion order is this embedding's determinization). -/
def appMapToApps (m : AppMap) : List App :=
  m.map (fun p => p.2)

/-- `types.Node`. -/
structure Node where
  name : String
  ip : String
  role : String
  version : String
deriving DecidableEq, Repr

/-- `types.ClusterInfo`: the snapshot payload. -/
structure ClusterInfo where
  apiVersion : String
  timestamp : Int
  nodes : List Node
  apps : List App
deriving DecidableEq, Repr

/-- `types.ClusterCache`. -/
structure ClusterCache where
  data : Option ClusterInfo
  updatedAt : Int
  ttl : Int
deriving DecidableEq, Repr

/-- `ClusterCache.IsExpired`: `time.Since(UpdatedAt) > TTL`, at time `now`. -/
def ClusterCache.isExpired (c : ClusterCache) (now : Int) : Bool :=
  now - c.updatedAt > c.ttl

/-- `GetClusterInfo`: an empty or expired cache yields the placeholder
snapshot; otherwise a copy of the cached snapshot with a fresh timestamp. -/
def getClusterInfo (cache : ClusterCache) (now : Int) : ClusterInfo :=
  match cache.data with
  | none =>
      { apiVersion := "reflector.grid.sce.com/v1", timestamp := now
        nodes := [], apps := [] }
  | some d =>
      if cache.isExpired now then
        { apiVersion := "reflector.grid.sce.com/v1", timestamp := now
          nodes := [], apps := [] }
      else { d with timestamp := now }

/-- The two failure reasons `HealthCheck` can report. -/
inductive HealthErr
  | connectivity
  | stale
deriving DecidableEq, Repr

/-- The node-list capability, taking the `Limit` of the list options. -/
abbrev NodeLister := Nat → Except String (List Node)

/-- `HealthCheck`: probe connectivity by a node list capped at one result,
then report staleness when the cache age exceeds twice the configured TTL. -/
def healthCheck (nodes : NodeLister) (cfg : Config) (cache : ClusterCache)
    (now : Int) : Except HealthErr Unit :=
  match nodes 1 with
  | Except.error _ => Except.error HealthErr.connectivity
  | Except.ok _ =>
    let cacheAge := now - cache.updatedAt
    if cacheAge > cfg.cacheTTL * 2 then Except.error HealthErr.stale
    else Except.ok ()

/-! ## Concrete fixtures used by end-to-end claims -/

/-- Default configuration (CLI defaults from `main.go`), TTL arbitrary. -/
def c2Config : Config :=
  { cacheTTL := 10, namespaceSelector := "", preferCRD := true,
    fallbackWorkloads := true, crdOnly := false,
    workloadKinds := ["Deployment", "StatefulSet"] }

/-- One AppVersion object `spec.name = my-app, spec.version = 1.0.0`. -/
def c2CrdLister : CRDLister := fun _ => Except.ok [⟨some ⟨some "my-app", some "1.0.0"⟩⟩]

/-- One Deployment labeled `app.kubernetes.io/name=my-app`,
`app.kubernetes.io/version=0.9.0`. -/
def c2DepLister : WorkloadLister := fun _ =>
  Except.ok [⟨[("app.kubernetes.io/name", "my-app"), ("app.kubernetes.io/version", "0.9.0")],
              ["registry.local/team/my-app:0.9.0"]⟩]

/-- No StatefulSets. -/
def c2StsLister : WorkloadLister := fun _ => Except.ok []

/-- A workload-only configuration over three explicit namespaces. -/
def c6Config : Config :=
  { cacheTTL := 10, namespaceSelector := "ns1,ns2,ns3", preferCRD := false,
    fallbackWorkloads := true, crdOnly := false,
    workloadKinds := ["Deployment", "StatefulSet"] }

/-- Deployment lister whose listing for namespace `ns2` fails while `ns1` and
`ns3` each hold one labeled deployment. -/
def c6DepLister : WorkloadLister := fun s =>
  match s with
  | ListScope.inNamespace "ns1" =>
      Except.ok [⟨[("app.kubernetes.io/name", "app1"), ("app.kubernetes.io/version", "1")], []⟩]
  | ListScope.inNamespace "ns2" => Except.error "connection refused"
  | ListScope.inNamespace "ns3" =>
      Except.ok [⟨[("app.kubernetes.io/name", "app3"), ("app.kubernetes.io/version", "3")], []⟩]
  | _ => Except.ok []

/-- StatefulSet lister with one labeled object in namespace `ns3`. -/
def c6StsLister : WorkloadLister := fun s =>
  match s with
  | ListScope.inNamespace "ns3" =>
      Except.ok [⟨[("app.kubernetes.io/name", "sts3"), ("app.kubernetes.io/version", "9")], []⟩]
  | _ => Except.ok []

/-- Deployment-only configuration with a selector holding an empty token. -/
def c10Config : Config :=
  { cacheTTL := 10, namespaceSelector := "a,,b", preferCRD := false,
    fallbackWorkloads := true, crdOnly := false, workloadKinds := ["Deployment"] }

/-- A lister that returns one labeled deployment only for the cluster-wide
scope (as a deployment living outside namespaces `a` and `b` would). -/
def c10DepLister : WorkloadLister := fun s =>
  match s with
  | ListScope.allNamespaces =>
      Except.ok [⟨[("app.kubernetes.io/name", "outside-app"), ("app.kubernetes.io/version", "7")], []⟩]
  | ListScope.inNamespace _ => Except.ok []

/-! ## Association-list map lemmas -/

/-- `findApp` unfolded at a cons cell. -/
theorem findApp_cons (k : String) (x : App) (rest : AppMap) (n : String) :
    findApp ((k, x) :: rest) n = if k = n then some x else findApp rest n := rfl

/-- `setApp` unfolded at a cons cell. -/
theorem setApp_cons (k : String) (x : App) (rest : AppMap) (n : String) (b : App) :
    setApp ((k, x) :: rest) n b = (if k = n then (n, b) else (k, x)) :: setApp rest n b := rfl

/-- Replacing the entry at a present key makes lookup return the new value. -/
theorem findApp_setApp_self (m : AppMap) (n : String) (b : App) (a : App)
    (h : findApp m n = some a) : findApp (setApp m n b) n = some b := by
  induction m with
  | nil => simp [findApp] at h
  | cons p rest ih =>
    obtain ⟨k, x⟩ := p
    rw [setApp_cons]
    by_cases hk : k = n
    · rw [if_pos hk, findApp_cons, if_pos rfl]
    · rw [if_neg hk, findApp_cons, if_neg hk]
      rw [findApp_cons, if_neg hk] at h
      exact ih h

/-- Replacing the entry at key `n` leaves lookups at other keys unchanged. -/
theorem findApp_setApp_ne (m : AppMap) (n : String) (b : App) (n' : String)
    (h : n' ≠ n) : findApp (setApp m n b) n' = findApp m n' := by
  induction m with
  | nil => rfl
  | cons p rest ih =>
    obtain ⟨k, x⟩ := p
    by_cases hk : k = n
    · subst hk
      rw [setApp_cons, if_pos rfl, findApp_cons, findApp_cons,
        if_neg (fun hh => h hh.symm), if_neg (fun hh => h hh.symm)]
      exact ih
    · rw [setApp_cons, if_neg hk, findApp_cons, findApp_cons]
      by_cases hk' : k = n'
      · rw [if_pos hk', if_pos hk']
      · rw [if_neg hk', if_neg hk']
        exact ih

/-- Lookup over an appended map tries the left part first. -/
theorem findApp_append (m m' : AppMap) (n : String) :
    findApp (m ++ m') n =
      match findApp m n with
      | some a => some a
      | none => findApp m' n := by
  induction m with
  | nil => simp [findApp]
  | cons p rest ih =>
    obtain ⟨k, x⟩ := p
    by_cases hk : k = n
    · simp [findApp, hk]
    · simp [findApp, hk, ih]

/-! ## The effective (name, version) contribution of each fold

Both fold rules first determine the (name, version) pair they contribute (or
skip the input), then merge that pair into the map.  The pair extraction and
the shared merge step are factored out here and proved equal to the source
functions, so that the fold rules can be analysed uniformly. -/

/-- The (name, version) pair one workload contributes after label lookup, the
image-reference fallback, and the `unknown` default; `none` when skipped. -/
def workloadPair (labels : List (String × String)) (containers : List String) :
    Option (String × String) :=
  let appName := lookupLabel labels "app.kubernetes.io/name"
  let appVersion := lookupLabel labels "app.kubernetes.io/version"
  let p := if appName = "" ∧ containers.length > 0 then
             parseImageTag (containers.headD "")
           else (appName, appVersion)
  if p.1 = "" then none
  else some (p.1, if p.2 = "" then "unknown" else p.2)

/-- The (name, version) pair one AppVersion object contributes; `none` when a
field is missing and the object is skipped. -/
def crdPair (obj : AVObj) : Option (String × String) :=
  match obj.spec with
  | none => none
  | some spec =>
    match spec.name, spec.version with
    | some n, some v => some (n, v)
    | _, _ => none

/-- The merge step shared by both fold rules: create the entry when the name
is new; otherwise append the version to variants when absent, overwriting the
primary version only when `overwrite` (the CRD fold) says so. -/
def foldEntry (m : AppMap) (n v : String) (overwrite : Bool) : AppMap :=
  match findApp m n with
  | some existing =>
      setApp m n
        { existing with variants := addVariant existing.variants v
                        version := if overwrite then v else existing.version }
  | none => m ++ [(n, { name := n, version := v, variants := [v] })]

/-- The workload fold is the merge step at its effective pair, without
primary-version overwrite. -/
theorem processWorkloadLabels_eq_foldEntry (labels : List (String × String))
    (containers : List String) (m : AppMap) :
    processWorkloadLabels labels containers m =
      match workloadPair labels containers with
      | none => m
      | some p => foldEntry m p.1 p.2 false := by
  unfold processWorkloadLabels workloadPair foldEntry
  dsimp only
  split_ifs <;> first | contradiction | rfl

/-- The CRD fold is the merge step at its effective pair, with
primary-version overwrite. -/
theorem processAppVersion_eq_foldEntry (obj : AVObj) (m : AppMap) :
    processAppVersionFromUnstructured obj m =
      match crdPair obj with
      | none => m
      | some p => foldEntry m p.1 p.2 true := by
  unfold processAppVersionFromUnstructured crdPair foldEntry
  cases obj with
  | mk spec =>
    cases spec with
    | none => rfl
    | some s =>
      cases s with
      | mk name version =>
        cases name with
        | none => rfl
        | some n =>
          cases version with
          | none => rfl
          | some v =>
            cases hf : findApp m n with
            | some existing => simp [hf]
            | none => simp [hf]

/-- Lookup after one merge step: the named entry gains the version as a
variant (or is created), keeping or overwriting its primary version; every
other entry is untouched. -/
theorem findApp_foldEntry (m : AppMap) (n v : String) (ow : Bool) (n' : String) :
    findApp (foldEntry m n v ow) n' =
      if n = n' then
        match findApp m n' with
        | some a => some { a with variants := addVariant a.variants v
                                  version := if ow then v else a.version }
        | none => some { name := n', version := v, variants := [v] }
      else findApp m n' := by
  unfold foldEntry
  cases hf : findApp m n with
  | some a =>
    by_cases hn : n = n'
    · subst hn
      rw [if_pos rfl, hf]
      exact findApp_setApp_self m n _ a hf
    · rw [if_neg hn]
      exact findApp_setApp_ne m n _ n' (fun h => hn h.symm)
  | none =>
    by_cases hn : n = n'
    · subst hn
      rw [if_pos rfl, findApp_append, hf, findApp_cons, if_pos rfl]
    · rw [if_neg hn, findApp_append, findApp_cons, if_neg hn]
      cases findApp m n' <;> rfl

/-- The pair a workload with a nonempty name label and nonempty version
label contributes is exactly that label pair. -/
theorem workloadPair_of_labels (labels : List (String × String))
    (containers : List String) (n v : String)
    (hn : lookupLabel labels "app.kubernetes.io/name" = n)
    (hv : lookupLabel labels "app.kubernetes.io/version" = v)
    (hne : n ≠ "") (hvne : v ≠ "") :
    workloadPair labels containers = some (n, v) := by
  unfold workloadPair
  dsimp only
  rw [hn, hv,
    if_neg (show ¬(n = "" ∧ containers.length > 0) from fun hc => hne hc.1)]
  dsimp only
  rw [if_neg hne, if_neg hvne]

/-! ## Claims -/

/-- C1, counterexample: fold the CRD pair (my-app, 1.0.0) and then the
workload pair (my-app, 0.9.0) — the §4.4 order with workloads last — and the
resulting primary version is still the CRD's 1.0.0, not the workload's
0.9.0 required by the claim's last-source-wins rule. -/
theorem c1_counterexample :
    (findApp
      (processWorkloadLabels
        [("app.kubernetes.io/name", "my-app"), ("app.kubernetes.io/version", "0.9.0")] []
        (processAppVersionFromUnstructured ⟨some ⟨some "my-app", some "1.0.0"⟩⟩ []))
      "my-app").map App.version = some "1.0.0" ∧
    (some "1.0.0" : Option String) ≠ some "0.9.0" := by
  decide

/-- C1, amended: when both sources contribute one app name, the CRD fold
overwrites the primary version of an existing entry, but the workload fold
leaves an existing entry's primary version unchanged and only records the
version as a variant; so a workload entry processed after the CRD source
does not overwrite the CRD's primary version. -/
theorem c1_fold_primary_version (m : AppMap) (a : App) (n v : String)
    (labels : List (String × String)) (containers : List String)
    (hfind : findApp m n = some a)
    (hn : lookupLabel labels "app.kubernetes.io/name" = n)
    (hv : lookupLabel labels "app.kubernetes.io/version" = v)
    (hne : n ≠ "") (hvne : v ≠ "") :
    findApp (processWorkloadLabels labels containers m) n =
      some { a with variants := addVariant a.variants v } ∧
    (∀ version,
      findApp (processAppVersionFromUnstructured ⟨some ⟨some n, some version⟩⟩ m) n =
        some { a with version := version
                      variants := addVariant a.variants version }) := by
  constructor
  · rw [processWorkloadLabels_eq_foldEntry,
      workloadPair_of_labels labels containers n v hn hv hne hvne]
    show findApp (foldEntry m n v false) n = _
    rw [findApp_foldEntry, if_pos rfl, hfind]
    rfl
  · intro version
    rw [processAppVersion_eq_foldEntry]
    show findApp (foldEntry m n version true) n = _
    rw [findApp_foldEntry, if_pos rfl, hfind]
    rfl

/-- C1, witness: the amended statement at the my-app instance. -/
theorem c1_fold_primary_version_witness :
    findApp (processWorkloadLabels
      [("app.kubernetes.io/name", "my-app"), ("app.kubernetes.io/version", "0.9.0")] []
      [("my-app", { name := "my-app", version := "1.0.0", variants := ["1.0.0"] })])
      "my-app" =
      some { name := "my-app", version := "1.0.0", variants := ["1.0.0", "0.9.0"] } := by
  have h := (c1_fold_primary_version
    [("my-app", { name := "my-app", version := "1.0.0", variants := ["1.0.0"] })]
    { name := "my-app", version := "1.0.0", variants := ["1.0.0"] }
    "my-app" "0.9.0"
    [("app.kubernetes.io/name", "my-app"), ("app.kubernetes.io/version", "0.9.0")] []
    (by decide) (by decide) (by decide) (by decide) (by decide)).1
  exact h.trans (by decide)

/-- C2: with the default ordering (CRD before workloads), one AppVersion
(my-app, 1.0.0) plus one Deployment labeled my-app/0.9.0 yield exactly the
App {name my-app, version 1.0.0, variants [1.0.0, 0.9.0]}. -/
theorem c2_end_to_end :
    appMapToApps (discoverApps c2Config c2CrdLister c2DepLister c2StsLister).1 =
      [{ name := "my-app", version := "1.0.0", variants := ["1.0.0", "0.9.0"] }] ∧
    (discoverApps c2Config c2CrdLister c2DepLister c2StsLister).2 =
      [Source.crd, Source.workload] := by
  decide

/-- C3, counterexample: the image reference `app@sha256:abcd` does not parse
to (app, latest); it parses to (app@sha256, abcd), because the code splits
on `:` first and only strips a digest suffix from the tag part. -/
theorem c3_counterexample :
    parseImageTag "app@sha256:abcd" ≠ ("app", "latest") ∧
    parseImageTag "app@sha256:abcd" = ("app@sha256", "abcd") := by
  decide

/-- C3, amended: `registry.io/team/app:1.2.3` parses to (app, 1.2.3) and
`app:1.2.3@sha256:abcd` parses to (app, 1.2.3) as claimed, but
`app@sha256:abcd` parses to (app@sha256, abcd). -/
theorem c3_parse_image_tag :
    parseImageTag "registry.io/team/app:1.2.3" = ("app", "1.2.3") ∧
    parseImageTag "app@sha256:abcd" = ("app@sha256", "abcd") ∧
    parseImageTag "app:1.2.3@sha256:abcd" = ("app", "1.2.3") := by
  decide

/-- C7: with an empty or expired cache, fetch-snapshot returns the
well-formed placeholder: zero nodes, zero apps, the current timestamp and
the exact schema string — never an error. -/
theorem c7_placeholder (cache : ClusterCache) (now : Int)
    (h : cache.data = none ∨ cache.isExpired now = true) :
    getClusterInfo cache now =
      { apiVersion := "reflector.grid.sce.com/v1", timestamp := now,
        nodes := [], apps := [] } := by
  unfold getClusterInfo
  cases hd : cache.data with
  | none => rfl
  | some d =>
    cases h with
    | inl h' => rw [hd] at h'; exact absurd h' (by simp)
    | inr h' =>
      dsimp only
      rw [if_pos h']

/-- C7, witness: the placeholder at an empty cache. -/
theorem c7_placeholder_witness :
    getClusterInfo { data := none, updatedAt := 0, ttl := 5 } 100 =
      { apiVersion := "reflector.grid.sce.com/v1", timestamp := 100,
        nodes := [], apps := [] } :=
  c7_placeholder { data := none, updatedAt := 0, ttl := 5 } 100 (Or.inl rfl)

/-- C8: with a non-expired cached snapshot, fetch-snapshot rewrites only the
timestamp to the current time; nodes, apps and apiVersion are those of the
last installed snapshot. -/
theorem c8_freshened_timestamp (cache : ClusterCache) (now : Int) (d : ClusterInfo)
    (hd : cache.data = some d) (hexp : cache.isExpired now = false) :
    (getClusterInfo cache now).nodes = d.nodes ∧
    (getClusterInfo cache now).apps = d.apps ∧
    (getClusterInfo cache now).apiVersion = d.apiVersion ∧
    (getClusterInfo cache now).timestamp = now := by
  unfold getClusterInfo
  rw [hd]
  dsimp only
  rw [if_neg (by simp [hexp])]
  exact ⟨rfl, rfl, rfl, rfl⟩

/-- C8, witness: the freshened-timestamp contract at a concrete cache. -/
theorem c8_freshened_timestamp_witness :
    (getClusterInfo
      { data := some { apiVersion := "reflector.grid.sce.com/v1", timestamp := 3,
                       nodes := [{ name := "node-1", ip := "10.0.1.100",
                                   role := "control-plane", version := "v1.28.4" }],
                       apps := [] },
        updatedAt := 98, ttl := 5 } 100).nodes =
      [{ name := "node-1", ip := "10.0.1.100", role := "control-plane",
         version := "v1.28.4" }] ∧
    (getClusterInfo
      { data := some { apiVersion := "reflector.grid.sce.com/v1", timestamp := 3,
                       nodes := [{ name := "node-1", ip := "10.0.1.100",
                                   role := "control-plane", version := "v1.28.4" }],
                       apps := [] },
        updatedAt := 98, ttl := 5 } 100).timestamp = 100 := by
  have h := c8_freshened_timestamp
    { data := some { apiVersion := "reflector.grid.sce.com/v1", timestamp := 3,
                     nodes := [{ name := "node-1", ip := "10.0.1.100",
                                 role := "control-plane", version := "v1.28.4" }],
                     apps := [] },
      updatedAt := 98, ttl := 5 } 100
    { apiVersion := "reflector.grid.sce.com/v1", timestamp := 3,
      nodes := [{ name := "node-1", ip := "10.0.1.100",
                  role := "control-plane", version := "v1.28.4" }],
      apps := [] } rfl (by decide)
  exact ⟨h.1, h.2.2.2⟩

/-- C9: when the one-result node probe succeeds, health-check reports stale
exactly when the cache age exceeds twice the configured TTL, and healthy
otherwise. -/
theorem c9_health_staleness (nodes : NodeLister) (cfg : Config)
    (cache : ClusterCache) (now : Int) (ns : List Node)
    (hok : nodes 1 = Except.ok ns) :
    (now - cache.updatedAt > cfg.cacheTTL * 2 →
       healthCheck nodes cfg cache now = Except.error HealthErr.stale) ∧
    (¬now - cache.updatedAt > cfg.cacheTTL * 2 →
       healthCheck nodes cfg cache now = Except.ok ()) := by
  unfold healthCheck
  rw [hok]
  dsimp only
  constructor
  · intro h
    rw [if_pos h]
  · intro h
    rw [if_neg h]

/-- C9, witness: a stale report at cache age 11 against TTL 5 with a
succeeding probe. -/
theorem c9_health_staleness_witness :
    healthCheck (fun _ => Except.ok [])
      { cacheTTL := 5, namespaceSelector := "", preferCRD := true,
        fallbackWorkloads := true, crdOnly := false, workloadKinds := [] }
      { data := none, updatedAt := 0, ttl := 5 } 11 =
      Except.error HealthErr.stale :=
  (c9_health_staleness (fun _ => Except.ok [])
    { cacheTTL := 5, namespaceSelector := "", preferCRD := true,
      fallbackWorkloads := true, crdOnly := false, workloadKinds := [] }
    { data := none, updatedAt := 0, ttl := 5 } 11 [] rfl).1 (by decide)

/-- C10: a selector with an empty token after split-and-trim (such as
`a,,b` or `prod,`) keeps the empty string in the parsed list, and workload
discovery treats that element as the all-namespaces sentinel, issuing a
cluster-wide list call — an app visible only to the cluster-wide listing
ends up in the map. -/
theorem c10_empty_namespace_token :
    parseNamespaceSelector "a,,b" = ["a", "", "b"] ∧
    "" ∈ parseNamespaceSelector "a,,b" ∧
    parseNamespaceSelector "prod," = ["prod", ""] ∧
    scopeOf "" = ListScope.allNamespaces ∧
    (findApp (discoverAppsFromWorkloads c10Config c10DepLister c10DepLister [])
      "outside-app").isSome = true := by
  decide

/-- A left fold whose step ignores the element is the identity. -/
theorem foldl_ignore {α β : Type} (l : List β) (m : α) :
    l.foldl (fun a _ => a) m = m := by
  induction l generalizing m with
  | nil => rfl
  | cons x xs ih => exact ih m

/-- A CRD lister that always fails contributes nothing to the map. -/
theorem discoverAppsFromCRD_error (cfg : Config) (e : String) (m : AppMap) :
    (discoverAppsFromCRD cfg (fun _ => Except.error e) m).1 = m := by
  unfold discoverAppsFromCRD
  by_cases hs : cfg.namespaceSelector = ""
  · rw [if_pos hs]
  · rw [if_neg hs]
    exact foldl_ignore (parseNamespaceSelector cfg.namespaceSelector) m

/-- A CRD lister that returns no objects contributes nothing to the map. -/
theorem discoverAppsFromCRD_empty (cfg : Config) (m : AppMap) :
    (discoverAppsFromCRD cfg (fun _ => Except.ok []) m).1 = m := by
  unfold discoverAppsFromCRD
  by_cases hs : cfg.namespaceSelector = ""
  · rw [if_pos hs]
    rfl
  · rw [if_neg hs]
    exact foldl_ignore (parseNamespaceSelector cfg.namespaceSelector) m

/-- C5: one discovery pass runs the CRD source exactly when preferCRD, runs
the workload source exactly when fallbackWorkloads and not crdOnly, runs
CRD folding before workload folding when both run, and a total CRD-source
failure changes nothing relative to an empty CRD source — it never aborts
the pass. -/
theorem c5_merge_policy (cfg : Config) (crd : CRDLister) (dep sts : WorkloadLister) :
    (Source.crd ∈ (discoverApps cfg crd dep sts).2 ↔ cfg.preferCRD = true) ∧
    (Source.workload ∈ (discoverApps cfg crd dep sts).2 ↔
      (cfg.fallbackWorkloads = true ∧ cfg.crdOnly = false)) ∧
    ((discoverApps cfg crd dep sts).2 =
      (if cfg.preferCRD then [Source.crd] else []) ++
      (if cfg.fallbackWorkloads && !cfg.crdOnly then [Source.workload] else [])) ∧
    (∀ e, discoverApps cfg (fun _ => Except.error e) dep sts =
          discoverApps cfg (fun _ => Except.ok []) dep sts) := by
  refine ⟨?_, ?_, ?_, ?_⟩
  · unfold discoverApps
    cases hp : cfg.preferCRD <;>
      cases hf : cfg.fallbackWorkloads <;>
        cases hc : cfg.crdOnly <;> simp
  · unfold discoverApps
    cases hp : cfg.preferCRD <;>
      cases hf : cfg.fallbackWorkloads <;>
        cases hc : cfg.crdOnly <;> simp
  · unfold discoverApps
    cases hp : cfg.preferCRD <;>
      cases hf : cfg.fallbackWorkloads <;>
        cases hc : cfg.crdOnly <;> simp
  · intro e
    unfold discoverApps
    dsimp only
    rw [discoverAppsFromCRD_error cfg e [], discoverAppsFromCRD_empty cfg []]

/-- C6, counterexample: selector ns1,ns2,ns3, Deployment listing fails in
ns2 only.  The claim requires ns3 of the same kind to still be processed;
the code aborts the kind at ns2, so app3 (living in ns3) is missing while
app1 (ns1, folded before the failure) is kept and the StatefulSet kind is
still processed (sts3 present). -/
theorem c6_counterexample :
    (findApp (discoverAppsFromWorkloads c6Config c6DepLister c6StsLister [])
      "app1").isSome = true ∧
    findApp (discoverAppsFromWorkloads c6Config c6DepLister c6StsLister [])
      "app3" = none ∧
    (findApp (discoverAppsFromWorkloads c6Config c6DepLister c6StsLister [])
      "sts3").isSome = true := by
  decide

/-- C6, amended: a listing failure for one namespace keeps the entries
already folded from earlier namespaces but aborts the remaining namespaces
of that same kind; the remaining kinds are still processed against the map
produced so far. -/
theorem c6_namespace_failure (list sts : WorkloadLister) (pre post : List String)
    (bad : String) (m : AppMap)
    (hpre : ∀ ns ∈ pre, ∃ items, list (scopeOf ns) = Except.ok items)
    (hbad : ∃ e, list (scopeOf bad) = Except.error e) :
    discoverFromDeployments list (pre ++ bad :: post) m =
      ((discoverFromDeployments list pre m).1, true) ∧
    (∀ cfg : Config, cfg.workloadKinds = ["Deployment", "StatefulSet"] →
      discoverAppsFromWorkloads cfg list sts m =
        (discoverFromStatefulSets sts
          (if cfg.namespaceSelector = "" then [""]
           else parseNamespaceSelector cfg.namespaceSelector)
          (discoverFromDeployments list
            (if cfg.namespaceSelector = "" then [""]
             else parseNamespaceSelector cfg.namespaceSelector) m).1).1) := by
  constructor
  · induction pre generalizing m with
    | nil =>
      obtain ⟨e, he⟩ := hbad
      simp only [List.nil_append]
      unfold discoverFromDeployments
      rw [he]
    | cons ns rest ih =>
      obtain ⟨items, hi⟩ := hpre ns (List.mem_cons_self ns rest)
      simp only [List.cons_append]
      unfold discoverFromDeployments
      rw [hi]
      apply ih
      intro x hx
      exact hpre x (List.mem_cons_of_mem ns hx)
  · intro cfg hk
    unfold discoverAppsFromWorkloads
    rw [hk]
    dsimp only [List.foldl]
    rw [if_pos rfl, if_neg (by decide), if_pos rfl]

/-! ## C4: the variants invariant over arbitrary fold sequences -/

/-- One fold event of either source, in processing order. -/
inductive FoldOp
  | crd (obj : AVObj)
  | workload (labels : List (String × String)) (containers : List String)

/-- Apply one fold event to the shared map, as the sources do. -/
def applyFold (m : AppMap) : FoldOp → AppMap
  | FoldOp.crd obj => processAppVersionFromUnstructured obj m
  | FoldOp.workload labels containers => processWorkloadLabels labels containers m

/-- Whether the fold overwrites the primary version (the CRD fold does). -/
def opOverwrite : FoldOp → Bool
  | FoldOp.crd _ => true
  | FoldOp.workload _ _ => false

/-- The pair a fold event effectively observes. -/
def observedPair : FoldOp → Option (String × String)
  | FoldOp.crd obj => crdPair obj
  | FoldOp.workload labels containers => workloadPair labels containers

/-- Spec side: the version strings observed for one name across a fold
sequence, in processing order. -/
def versionsFor (ops : List FoldOp) (n : String) : List String :=
  ((ops.filterMap observedPair).filter (fun p => p.1 = n)).map (fun p => p.2)

/-- Spec side: a list deduplicated keeping first occurrences, via the same
duplicate-avoiding append both folds use. -/
def firstSeenDedup (l : List String) : List String :=
  l.foldl addVariant []

/-- Either fold event is the shared merge step at its observed pair. -/
theorem applyFold_eq (m : AppMap) (op : FoldOp) :
    applyFold m op =
      match observedPair op with
      | none => m
      | some p => foldEntry m p.1 p.2 (opOverwrite op) := by
  cases op with
  | crd obj => exact processAppVersion_eq_foldEntry obj m
  | workload labels containers => exact processWorkloadLabels_eq_foldEntry labels containers m

/-- Observed versions of a sequence extended by one event. -/
theorem versionsFor_append (ops : List FoldOp) (op : FoldOp) (n : String) :
    versionsFor (ops ++ [op]) n =
      versionsFor ops n ++
        (match observedPair op with
         | some p => if p.1 = n then [p.2] else []
         | none => []) := by
  unfold versionsFor
  rw [List.filterMap_append, List.filter_append, List.map_append]
  congr 1
  cases ho : observedPair op with
  | none => simp [List.filterMap, ho]
  | some p =>
    by_cases hp : p.1 = n <;> simp [List.filterMap, ho, hp]

/-- First-seen dedup of a list extended by one element. -/
theorem firstSeenDedup_append (l : List String) (v : String) :
    firstSeenDedup (l ++ [v]) = addVariant (firstSeenDedup l) v := by
  unfold firstSeenDedup
  rw [List.foldl_append, List.foldl_cons, List.foldl_nil]

/-- Membership in a dedup fold is membership in the accumulator or input. -/
theorem mem_foldl_addVariant (l : List String) (acc : List String) (x : String) :
    x ∈ l.foldl addVariant acc ↔ x ∈ acc ∨ x ∈ l := by
  induction l generalizing acc with
  | nil => simp
  | cons y ys ih =>
    rw [List.foldl_cons, ih]
    unfold addVariant
    by_cases hy : acc.contains y
    · rw [if_pos hy]
      have hy' : y ∈ acc := by simpa using hy
      simp only [List.mem_cons]
      constructor
      · rintro (h | h)
        · exact Or.inl h
        · exact Or.inr (Or.inr h)
      · rintro (h | h | h)
        · exact Or.inl h
        · exact Or.inl (by rw [h]; exact hy')
        · exact Or.inr h
    · rw [if_neg hy]
      simp [List.mem_append, List.mem_cons, or_assoc]

/-- A dedup fold from a duplicate-free accumulator stays duplicate-free. -/
theorem nodup_foldl_addVariant (l : List String) (acc : List String)
    (hacc : acc.Nodup) : (l.foldl addVariant acc).Nodup := by
  induction l generalizing acc with
  | nil => exact hacc
  | cons y ys ih =>
    rw [List.foldl_cons]
    apply ih
    unfold addVariant
    by_cases hy : acc.contains y
    · rw [if_pos hy]
      exact hacc
    · rw [if_neg hy]
      have hy' : y ∉ acc := by simpa using hy
      simp [List.nodup_append, hacc, hy']

/-- C4: after folding any sequence of events from either source into an
empty map, each name's entry exists exactly when some event observed that
name, its variants list is the first-seen deduplication of the versions
observed for that name, and therefore holds every distinct observed version
exactly once, in first-seen order. -/
theorem c4_variants_invariant (ops : List FoldOp) (n : String) :
    ((findApp (ops.foldl applyFold []) n).map App.variants =
      (if versionsFor ops n = [] then none
       else some (firstSeenDedup (versionsFor ops n)))) ∧
    (∀ a, findApp (ops.foldl applyFold []) n = some a →
      a.variants.Nodup ∧ ∀ v, v ∈ a.variants ↔ v ∈ versionsFor ops n) := by
  have key : (findApp (ops.foldl applyFold []) n).map App.variants =
      (if versionsFor ops n = [] then none
       else some (firstSeenDedup (versionsFor ops n))) := by
    induction ops using List.reverseRecOn with
    | nil => rfl
    | append_singleton ops op ih =>
      rw [List.foldl_append, List.foldl_cons, List.foldl_nil, applyFold_eq,
        versionsFor_append]
      cases ho : observedPair op with
      | none =>
        dsimp only
        rw [List.append_nil]
        exact ih
      | some p =>
        dsimp only
        rw [findApp_foldEntry]
        by_cases hp : p.1 = n
        · rw [if_pos hp]
          rw [if_pos hp]
          have hne : versionsFor ops n ++ [p.2] ≠ [] := by simp
          rw [if_neg hne, firstSeenDedup_append]
          cases hm : findApp (ops.foldl applyFold []) n with
          | some a =>
            rw [hm] at ih
            by_cases hV : versionsFor ops n = []
            · rw [if_pos hV] at ih
              exact absurd ih (by simp)
            · rw [if_neg hV] at ih
              have hav : a.variants = firstSeenDedup (versionsFor ops n) := by
                simpa using ih
              dsimp only
              rw [hav]
              rfl
          | none =>
            rw [hm] at ih
            by_cases hV : versionsFor ops n = []
            · rw [hV]
              rfl
            · rw [if_neg hV] at ih
              exact absurd ih (by simp)
        · rw [if_neg hp]
          rw [if_neg hp, List.append_nil]
          exact ih
  refine ⟨key, fun a ha => ?_⟩
  rw [ha] at key
  by_cases hV : versionsFor ops n = []
  · rw [if_pos hV] at key
    exact absurd key (by simp)
  · rw [if_neg hV] at key
    have hav : a.variants = firstSeenDedup (versionsFor ops n) := by
      simpa using key
    constructor
    · rw [hav]
      exact nodup_foldl_addVariant _ [] List.nodup_nil
    · intro v
      rw [hav]
      unfold firstSeenDedup
      rw [mem_foldl_addVariant]
      simp

/-- C4, witness: the invariant's per-entry consequence at a concrete
two-source sequence sharing the name my-app. -/
theorem c4_variants_invariant_witness :
    ({ name := "my-app", version := "1.0.0",
       variants := ["1.0.0", "0.9.0"] } : App).variants.Nodup ∧
    ∀ v, v ∈ ({ name := "my-app", version := "1.0.0",
                variants := ["1.0.0", "0.9.0"] } : App).variants ↔
      v ∈ versionsFor
        [FoldOp.crd ⟨some ⟨some "my-app", some "1.0.0"⟩⟩,
         FoldOp.workload
           [("app.kubernetes.io/name", "my-app"),
            ("app.kubernetes.io/version", "0.9.0")] [],
         FoldOp.crd ⟨some ⟨some "my-app", some "1.0.0"⟩⟩] "my-app" :=
  (c4_variants_invariant
    [FoldOp.crd ⟨some ⟨some "my-app", some "1.0.0"⟩⟩,
     FoldOp.workload
       [("app.kubernetes.io/name", "my-app"),
        ("app.kubernetes.io/version", "0.9.0")] [],
     FoldOp.crd ⟨some ⟨some "my-app", some "1.0.0"⟩⟩] "my-app").2
    { name := "my-app", version := "1.0.0", variants := ["1.0.0", "0.9.0"] }
    (by decide)

/-- C6, witness: the amended statement at the ns1 / ns2 / ns3 instance. -/
theorem c6_namespace_failure_witness :
    discoverFromDeployments c6DepLister (["ns1"] ++ "ns2" :: ["ns3"]) [] =
      ((discoverFromDeployments c6DepLister ["ns1"] []).1, true) := by
  have h := (c6_namespace_failure c6DepLister c6StsLister ["ns1"] ["ns3"] "ns2" []
    (by intro ns hns
        rw [List.mem_singleton] at hns
        subst hns
        exact ⟨_, rfl⟩)
    ⟨"connection refused", rfl⟩).1
  exact h

end ClusterReflector
